import Mathlib

/-
  Verification of the sun-builder dial renderer (SunImage.ts).

  The program's core helpers are string-to-number pipelines written in
  JavaScript/TypeScript: every time of day travels as a colon-delimited
  string, is split on ":", each field is converted with the JS Number()
  coercion, validated, and then turned into dial angles, display strings, or
  derived twilight times.  The embedding below models JS strings as lists of
  characters, JS numbers as exact rationals (all arithmetic the program does
  on time fields is exact in binary floating point at these magnitudes, so ℚ
  is a faithful carrier), and a method that may call logger.warn as a value
  paired with a "warned" flag.
-/

namespace SunBuilder

/-- Characters of a JavaScript string. -/
abbrev JSStr := List Char

/-- Value returned by a method together with whether it called logger.warn
on the way (the only observable side effect of these helpers). -/
structure Logged (α : Type) where
  value : α
  warned : Bool
deriving DecidableEq, Repr

/-- JavaScript String.prototype.split with separator ":" : splitting the
empty string gives one empty field, each ':' starts a new field. -/
def splitCols : JSStr → List JSStr
  | [] => [[]]
  | c :: rest =>
    if c = ':' then [] :: splitCols rest
    else
      match splitCols rest with
      | [] => [[c]]
      | f :: fs => (c :: f) :: fs

/-- Numeric value of a decimal digit character. -/
def digitVal (c : Char) : ℕ := c.toNat - 48

/-- Value of a list of decimal digit characters, most significant first. -/
def natOfDigits (l : JSStr) : ℕ := l.foldl (fun a c => a * 10 + digitVal c) 0

/-- Unsigned part of the JS Number() coercion on a time field: decimal
digits with an optional fractional part; anything else is NaN (none). -/
def parseUnsigned (l : JSStr) : Option ℚ :=
  let intPart := l.takeWhile Char.isDigit
  match l.dropWhile Char.isDigit with
  | [] => if intPart.isEmpty then none else some (natOfDigits intPart)
  | '.' :: frac =>
    if frac.all Char.isDigit && (!intPart.isEmpty || !frac.isEmpty) then
      some ((natOfDigits intPart : ℚ) + (natOfDigits frac : ℚ) / (10 : ℚ) ^ frac.length)
    else none
  | _ => none

/-- Model of the JavaScript Number() coercion as applied to the fields of a
time string: the empty string converts to 0, an optional sign precedes a
decimal numeral, and any other field is NaN, modelled as none.  (Exotic JS
numeric syntax such as hex or exponents never reaches these helpers.) -/
def jsNumber (l : JSStr) : Option ℚ :=
  if l = [] then some 0
  else if l.head? = some '+' then parseUnsigned l.tail
  else if l.head? = some '-' then (parseUnsigned l.tail).map (fun q => -q)
  else parseUnsigned l

/-- Truncation toward zero, as used by the JavaScript % operator. -/
def truncQ (q : ℚ) : ℤ := if 0 ≤ q then ⌊q⌋ else ⌈q⌉

/-- The JavaScript % operator on numbers: remainder after division
truncated toward zero (the result keeps the sign of the dividend). -/
def jsRem (a b : ℚ) : ℚ := a - b * truncQ (a / b)

/-- Fuel-driven decimal numeral of a natural number, most significant digit
first (fuel at least the number itself always suffices). -/
def natDigitsAux : ℕ → ℕ → JSStr
  | 0, _ => []
  | fuel + 1, n =>
    if n < 10 then [Nat.digitChar n]
    else natDigitsAux fuel (n / 10) ++ [Nat.digitChar (n % 10)]

/-- Decimal numeral of a natural number, most significant digit first. -/
def natDigits (n : ℕ) : JSStr := natDigitsAux (n + 1) n

/-- JavaScript number-to-string conversion as used by the template literals
of this program.  The program only ever interpolates integral hour and
minute values, so only integral rationals are given a decimal rendering;
non-integral values (unreachable in the verified statements) are out of the
model and map to the empty string. -/
def jsNumToStr (q : ℚ) : JSStr :=
  if q.den = 1 then
    if q.num < 0 then '-' :: natDigits q.num.natAbs else natDigits q.num.natAbs
  else []

/-- The validation block that getAngle, formatTime and getTwilight all begin
with, verbatim from the source: fewer than two ":"-separated fields, a NaN
hour or minute field, an hour outside 0..23 or a minute outside 0..59 make
the input invalid.  (When a field is NaN the JS comparisons against the
bounds are false; Option.getD 0 reproduces exactly that.) -/
def timeGuardFails (timeElements : List JSStr) : Bool :=
  decide (timeElements.length < 2) ||
  (jsNumber (timeElements.getD 0 [])).isNone ||
  (jsNumber (timeElements.getD 1 [])).isNone ||
  decide ((jsNumber (timeElements.getD 0 [])).getD 0 < 0) ||
  decide (23 < (jsNumber (timeElements.getD 0 [])).getD 0) ||
  decide ((jsNumber (timeElements.getD 1 [])).getD 0 < 0) ||
  decide (59 < (jsNumber (timeElements.getD 1 [])).getD 0)

/-- SunImage.getAngle: time string to dial angle in degrees, 15 degrees per
hour and a quarter degree per minute; on invalid input it logs a warning
and returns 0. -/
def getAngle (timeStr : JSStr) : Logged ℚ :=
  let timeElements := splitCols timeStr
  if timeGuardFails timeElements then ⟨0, true⟩
  else
    ⟨(jsNumber (timeElements.getD 0 [])).getD 0 * 15 +
      (jsNumber (timeElements.getD 1 [])).getD 0 / 4, false⟩

/-- Degree part of SunImage.getRenderAngle: add 180, subtract 90, then apply
the JavaScript % 360 (truncating remainder, not mathematical modulo). -/
def getRenderAngleDeg (timeAngle : ℚ) : ℚ := jsRem (timeAngle + 180 - 90) 360

/-- SunImage.getRenderAngle: the degree computation above converted to
radians. -/
noncomputable def getRenderAngle (timeAngle : ℚ) : ℝ :=
  (getRenderAngleDeg timeAngle : ℝ) * Real.pi / 180

/-- SunImage.formatTime: 24-hour time string to a 12-hour display string
with AM/PM; on invalid input it logs a warning and returns the empty
string. -/
def formatTime (timeStr : JSStr) : Logged JSStr :=
  let timeElements := splitCols timeStr
  if timeGuardFails timeElements then ⟨[], true⟩
  else
    let hourRaw := (jsNumber (timeElements.getD 0 [])).getD 0
    let hourMod := jsRem hourRaw 12
    let hour := if hourMod = 0 then 12 else hourMod
    let min := (jsNumber (timeElements.getD 1 [])).getD 0
    let minStr := if min < 10 then '0' :: jsNumToStr min else jsNumToStr min
    let amPmStr := if 11 < hourRaw then ['P', 'M'] else ['A', 'M']
    ⟨jsNumToStr hour ++ ':' :: (minStr ++ ' ' :: amPmStr), false⟩

/-- SunImage.getTwilight, verbatim from the source: validate, reduce the
hour with the JS % 12 and map 0 to 12, then branch on the minute: for "am"
subtract 36 minutes and 1 hour when the minute is at least 36, otherwise
add 24 minutes and subtract 2 hours; for anything else (the "pm" call) add
24 minutes and 1 hour when the minute is below 36, otherwise subtract 36
minutes and add 2 hours; finally zero-pad both components to two
characters. -/
def getTwilight (timeStr : JSStr) (amPm : JSStr) : Logged JSStr :=
  let timeElements := splitCols timeStr
  if timeGuardFails timeElements then ⟨[], true⟩
  else
    let hourMod := jsRem ((jsNumber (timeElements.getD 0 [])).getD 0) 12
    let hour0 := if hourMod = 0 then 12 else hourMod
    let min0 := (jsNumber (timeElements.getD 1 [])).getD 0
    let hm :=
      if amPm = "am".data then
        if 36 ≤ min0 then (hour0 - 1, min0 - 36) else (hour0 - 2, min0 + 24)
      else
        if min0 < 36 then (hour0 + 1, min0 + 24) else (hour0 + 2, min0 - 36)
    let hourStr := if hm.1 < 10 then '0' :: jsNumToStr hm.1 else jsNumToStr hm.1
    let minStr := if hm.2 < 10 then '0' :: jsNumToStr hm.2 else jsNumToStr hm.2
    ⟨hourStr ++ ':' :: minStr, false⟩

/-- The fixed twilight margin of getImage: 24 degrees. -/
def twilightDegrees : ℚ := 24

/-- Inner disc color of the current-time sun marker when the sun is up. -/
def sunUpColor : String := "#FFE000"

/-- Inner disc color of the current-time sun marker when the sun is down. -/
def sunDownColor : String := "#D1AF02"

/-- Label slot pair chosen by getImage for the sunrise and first-light
labels: the three-way branch on the sunrise dial angle, returning the
indices into the labelSlots array (sunrise slot, first-light slot). -/
def sunriseLabelSlots (sunriseAngle : ℚ) : ℕ × ℕ :=
  if sunriseAngle ≤ 90 then (2, 3)
  else if sunriseAngle < 90 + twilightDegrees then (1, 2)
  else (0, 1)

/-- Label slot pair chosen by getImage for the sunset and last-light labels:
the four-way branch on the sunset dial angle, returning the indices into
the labelSlots array (sunset slot, last-light slot). -/
def sunsetLabelSlots (sunsetAngle : ℚ) : ℕ × ℕ :=
  if sunsetAngle ≤ 270 - twilightDegrees then (4, 5)
  else if sunsetAngle < 270 then (5, 6)
  else if sunsetAngle ≤ 270 + 20 then (6, 7)
  else (7, 8)

/-- Fill color of the inner disc of the current-time sun marker, as computed
by getImage: the sunrise, sunset and current-time strings are converted with
getAngle, and the brighter color is chosen exactly when the current-time
angle is strictly greater than the sunrise angle and strictly smaller than
the sunset angle. -/
def sunMarkerInnerColor (sunrise sunset currentTime : JSStr) : String :=
  let sunriseAngle := (getAngle sunrise).value
  let sunsetAngle := (getAngle sunset).value
  let currentTimeAngle := (getAngle currentTime).value
  if sunriseAngle < currentTimeAngle ∧ currentTimeAngle < sunsetAngle then
    sunUpColor
  else sunDownColor

/-- Two-character zero-padded decimal numeral of a natural number below
100, matching the padding both of the upstream data ("06:20") and of the
program's own string building. -/
def pad2 (n : ℕ) : JSStr := if n < 10 then '0' :: natDigits n else natDigits n

/-- Canonical well-formed time string "HH:MM". -/
def timeStr2 (h m : ℕ) : JSStr := pad2 h ++ ':' :: pad2 m

/-- Decimal rendering of an integer, as JS renders integral numbers. -/
def intStr (x : ℤ) : JSStr :=
  if x < 0 then '-' :: natDigits x.natAbs else natDigits x.natAbs

/-- The hour/minute padding of getTwilight applied to an integer component:
prepend a '0' character whenever the value is below 10. -/
def intPad (x : ℤ) : JSStr := if x < 10 then '0' :: intStr x else intStr x

/-- The output string getTwilight builds from an integral hour/minute
pair. -/
def hmString (a b : ℤ) : JSStr := intPad a ++ ':' :: intPad b

/-- The 12-hour reduction getTwilight and formatTime apply to an integral
hour: hour mod 12, with 0 mapped to 12. -/
def twi12 (h : ℕ) : ℤ := if h % 12 = 0 then 12 else ((h % 12 : ℕ) : ℤ)

/-- The hour/minute arithmetic of getTwilight specialised to an integral
input hour and minute (value-level reading of the branches of the
source). -/
def twiPair (h m : ℕ) (amPm : JSStr) : ℤ × ℤ :=
  if amPm = "am".data then
    if 36 ≤ m then (twi12 h - 1, (m : ℤ) - 36) else (twi12 h - 2, (m : ℤ) + 24)
  else
    if m < 36 then (twi12 h + 1, (m : ℤ) + 24) else (twi12 h + 2, (m : ℤ) - 36)

/-- Modelled from the spec: the first-light rule exactly as the claim
states it, with no transformation of the hour other than the stated
branches: subtract 36 minutes and 1 hour when the minute is at least 36,
otherwise add 24 minutes and subtract 2 hours. -/
def specFirstLightPair (h m : ℤ) : ℤ × ℤ :=
  if 36 ≤ m then (h - 1, m - 36) else (h - 2, m + 24)

/-- Modelled from the spec: true mathematical modulo by 360, non-negative
for every real input. -/
def mathMod360 (x : ℚ) : ℚ := x - 360 * ⌊x / 360⌋

/-- Modelled from the spec: the render angle in degrees computed with the
true mathematical modulo. -/
def specRenderAngleDeg (a : ℚ) : ℚ := mathMod360 (a + 180 - 90)

/-- Modelled from the spec: the render angle in radians computed with the
true mathematical modulo. -/
noncomputable def specRenderAngle (a : ℚ) : ℝ :=
  (specRenderAngleDeg a : ℝ) * Real.pi / 180

/-- Modelled from the spec: the 12-hour display string as the claim states
it, built directly from an integral hour and minute: displayed hour is the
original hour mod 12 with 0 rendered as 12, minute zero-padded to two
digits, suffix PM exactly when the original hour is at least 12. -/
def specFormat12 (h m : ℕ) : JSStr :=
  (if h % 12 = 0 then natDigits 12 else natDigits (h % 12)) ++
    ':' :: (pad2 m ++ ' ' :: (if 12 ≤ h then ['P', 'M'] else ['A', 'M']))

/-
  Helper lemmas: evaluating the string pipeline on well-formed inputs.
-/

theorem isDigit_ne_colon {c : Char} (h : c.isDigit = true) : c ≠ ':' := by
  intro hc; subst hc; exact absurd h (by decide)

theorem isDigit_ne_plus {c : Char} (h : c.isDigit = true) : c ≠ '+' := by
  intro hc; subst hc; exact absurd h (by decide)

theorem isDigit_ne_minus {c : Char} (h : c.isDigit = true) : c ≠ '-' := by
  intro hc; subst hc; exact absurd h (by decide)

theorem digitChar_isDigit {d : ℕ} (h : d < 10) : (Nat.digitChar d).isDigit = true := by
  interval_cases d <;> decide

theorem digitVal_digitChar {d : ℕ} (h : d < 10) : digitVal (Nat.digitChar d) = d := by
  interval_cases d <;> decide

theorem natDigits_lt_10 {n : ℕ} (h : n < 10) : natDigits n = [Nat.digitChar n] := by
  simp [natDigits, natDigitsAux, h]

theorem natDigits_two {n : ℕ} (h1 : 10 ≤ n) (h2 : n < 100) :
    natDigits n = [Nat.digitChar (n / 10), Nat.digitChar (n % 10)] := by
  obtain ⟨k, rfl⟩ : ∃ k, n = k + 1 := ⟨n - 1, by omega⟩
  have hd : k + 1 ≥ 10 := h1
  have hq : (k + 1) / 10 < 10 := by omega
  simp [natDigits, natDigitsAux, Nat.not_lt.mpr h1, hq]

theorem natDigits_all_digits (n : ℕ) : ∀ c ∈ natDigits n, c.isDigit = true := by
  suffices h : ∀ fuel n, ∀ c ∈ natDigitsAux fuel n, c.isDigit = true from h (n + 1) n
  intro fuel
  induction fuel with
  | zero => intro n c hc; simp [natDigitsAux] at hc
  | succ f ih =>
    intro n c hc
    by_cases h10 : n < 10
    · simp [natDigitsAux, h10] at hc
      subst hc; exact digitChar_isDigit h10
    · simp [natDigitsAux, h10] at hc
      rcases hc with hc | hc
      · exact ih _ _ hc
      · subst hc; exact digitChar_isDigit (Nat.mod_lt _ (by norm_num))

theorem natDigits_ne_nil (n : ℕ) : natDigits n ≠ [] := by
  unfold natDigits natDigitsAux
  by_cases h10 : n < 10 <;> simp [h10]

theorem pad2_all_digits (n : ℕ) : ∀ c ∈ pad2 n, c.isDigit = true := by
  unfold pad2
  split
  · intro c hc
    rcases List.mem_cons.mp hc with hc | hc
    · subst hc; decide
    · exact natDigits_all_digits n c hc
  · exact natDigits_all_digits n

theorem pad2_ne_nil (n : ℕ) : pad2 n ≠ [] := by
  unfold pad2; split
  · simp
  · exact natDigits_ne_nil n

theorem pad2_no_colon (n : ℕ) : ':' ∉ pad2 n := by
  intro hmem
  exact isDigit_ne_colon (pad2_all_digits n ':' hmem) rfl

theorem natOfDigits_pad2 {n : ℕ} (h : n ≤ 99) : natOfDigits (pad2 n) = n := by
  unfold pad2
  by_cases h10 : n < 10
  · rw [if_pos h10, natDigits_lt_10 h10]
    simp [natOfDigits, digitVal_digitChar h10]
    decide
  · rw [if_neg h10, natDigits_two (by omega) (by omega)]
    simp [natOfDigits, digitVal_digitChar (show n / 10 < 10 by omega),
      digitVal_digitChar (show n % 10 < 10 from Nat.mod_lt _ (by norm_num))]
    omega

theorem takeWhile_all {p : Char → Bool} {l : JSStr} (h : ∀ c ∈ l, p c = true) :
    l.takeWhile p = l := by
  induction l with
  | nil => rfl
  | cons c cs ih =>
    rw [List.takeWhile_cons, h c (by simp)]
    exact congrArg (c :: ·) (ih fun x hx => h x (by simp [hx]))

theorem dropWhile_all {p : Char → Bool} {l : JSStr} (h : ∀ c ∈ l, p c = true) :
    l.dropWhile p = [] := by
  induction l with
  | nil => rfl
  | cons c cs ih =>
    rw [List.dropWhile_cons, h c (by simp)]
    exact ih fun x hx => h x (by simp [hx])

theorem parseUnsigned_digits {l : JSStr} (hne : l ≠ [])
    (hd : ∀ c ∈ l, c.isDigit = true) :
    parseUnsigned l = some ((natOfDigits l : ℕ) : ℚ) := by
  simp only [parseUnsigned]
  rw [takeWhile_all hd, dropWhile_all hd]
  simp [hne]

theorem jsNumber_digits {l : JSStr} (hne : l ≠ [])
    (hd : ∀ c ∈ l, c.isDigit = true) :
    jsNumber l = some ((natOfDigits l : ℕ) : ℚ) := by
  obtain ⟨c, cs, rfl⟩ := List.exists_cons_of_ne_nil hne
  have hc := hd c (by simp)
  unfold jsNumber
  rw [if_neg (by simp), if_neg (by simp [isDigit_ne_plus hc]),
    if_neg (by simp [isDigit_ne_minus hc])]
  exact parseUnsigned_digits hne hd

theorem jsNumber_pad2 {n : ℕ} (h : n ≤ 99) : jsNumber (pad2 n) = some ((n : ℕ) : ℚ) := by
  rw [jsNumber_digits (pad2_ne_nil n) (pad2_all_digits n), natOfDigits_pad2 h]

theorem splitCols_no_colon {l : JSStr} (h : ':' ∉ l) : splitCols l = [l] := by
  induction l with
  | nil => rfl
  | cons c cs ih =>
    have hc : c ≠ ':' := fun hcc => h (by simp [hcc])
    have ihh := ih fun hm => h (by simp [hm])
    simp [splitCols, hc, ihh]

theorem splitCols_append {l : JSStr} (h : ':' ∉ l) (rest : JSStr) :
    splitCols (l ++ ':' :: rest) = l :: splitCols rest := by
  induction l with
  | nil => simp [splitCols]
  | cons c cs ih =>
    have hc : c ≠ ':' := fun hcc => h (by simp [hcc])
    have ihh := ih fun hm => h (by simp [hm])
    simp [splitCols, hc, ihh]

theorem splitCols_timeStr2 (h m : ℕ) : splitCols (timeStr2 h m) = [pad2 h, pad2 m] := by
  unfold timeStr2
  rw [splitCols_append (pad2_no_colon h), splitCols_no_colon (pad2_no_colon m)]

theorem timeGuardFails_false {h m : ℕ} (hh : h ≤ 23) (hm : m ≤ 59) (es : List JSStr) :
    timeGuardFails (pad2 h :: pad2 m :: es) = false := by
  have e0 : (pad2 h :: pad2 m :: es).getD 0 [] = pad2 h := rfl
  have e1 : (pad2 h :: pad2 m :: es).getD 1 [] = pad2 m := rfl
  have hn0 : ¬((h : ℚ) < 0) := not_lt.mpr (by positivity)
  have hn1 : ¬(23 < (h : ℚ)) := not_lt.mpr (by exact_mod_cast hh)
  have hn2 : ¬((m : ℚ) < 0) := not_lt.mpr (by positivity)
  have hn3 : ¬(59 < (m : ℚ)) := not_lt.mpr (by exact_mod_cast hm)
  simp [timeGuardFails, e0, e1, jsNumber_pad2 (show h ≤ 99 by omega),
    jsNumber_pad2 (show m ≤ 99 by omega), hn0, hn1, hn2, hn3]

theorem jsRem_12 (n : ℕ) : jsRem (n : ℚ) 12 = ((n % 12 : ℕ) : ℚ) := by
  unfold jsRem truncQ
  rw [if_pos (by positivity)]
  have h2 : ⌊(n : ℚ) / 12⌋ = ((n / 12 : ℕ) : ℤ) := by
    rw [Int.floor_eq_iff]
    constructor
    · rw [le_div_iff₀ (by norm_num)]
      exact_mod_cast Nat.div_mul_le_self n 12
    · rw [div_lt_iff₀ (by norm_num)]
      exact_mod_cast (by omega : n < (n / 12 + 1) * 12)
  rw [h2]
  have h4 : (((n / 12 : ℕ) : ℤ) : ℚ) = ((n / 12 : ℕ) : ℚ) := Int.cast_natCast _
  rw [h4]
  have h3 : (12 : ℚ) * ((n / 12 : ℕ) : ℚ) + ((n % 12 : ℕ) : ℚ) = (n : ℚ) := by
    exact_mod_cast congrArg (fun k : ℕ => (k : ℚ)) (Nat.div_add_mod n 12)
  linarith

theorem jsNumToStr_int (x : ℤ) : jsNumToStr (x : ℚ) = intStr x := by
  unfold jsNumToStr intStr
  rw [if_pos (Rat.den_intCast x)]
  rcases lt_or_ge x 0 with hx | hx
  · rw [if_pos (by exact_mod_cast hx), if_pos hx]
    simp
  · rw [if_neg (by simp [Rat.num_intCast]; omega), if_neg (not_lt.mpr hx)]
    simp

theorem intStr_natCast (n : ℕ) : intStr (n : ℤ) = natDigits n := by
  unfold intStr
  rw [if_neg (by omega)]
  simp

theorem jsNumToStr_natCast (n : ℕ) : jsNumToStr (n : ℚ) = natDigits n := by
  have h : ((n : ℤ) : ℚ) = (n : ℚ) := by push_cast; ring
  rw [← h, jsNumToStr_int, intStr_natCast]

theorem getAngle_parsed {s : JSStr} {h m : ℕ} {es : List JSStr}
    (hs : splitCols s = pad2 h :: pad2 m :: es) (hh : h ≤ 23) (hm : m ≤ 59) :
    getAngle s = ⟨(h : ℚ) * 15 + (m : ℚ) / 4, false⟩ := by
  simp only [getAngle, hs, timeGuardFails_false hh hm, Bool.false_eq_true, if_false,
    List.getD_cons_zero, List.getD_cons_succ, jsNumber_pad2 (show h ≤ 99 by omega),
    jsNumber_pad2 (show m ≤ 99 by omega), Option.getD_some]

theorem twilightValue_int (x y : ℤ) :
    ((if (x : ℚ) < 10 then '0' :: jsNumToStr (x : ℚ) else jsNumToStr (x : ℚ)) ++
      ':' :: (if (y : ℚ) < 10 then '0' :: jsNumToStr (y : ℚ) else jsNumToStr (y : ℚ)))
    = hmString x y := by
  unfold hmString intPad
  rw [jsNumToStr_int, jsNumToStr_int]
  have hx : ((x : ℚ) < 10) = (x < 10) := by
    apply propext; exact_mod_cast Iff.rfl
  have hy : ((y : ℚ) < 10) = (y < 10) := by
    apply propext; exact_mod_cast Iff.rfl
  simp only [hx, hy]

theorem twi12_cast (h : ℕ) :
    (if ((h % 12 : ℕ) : ℚ) = 0 then (12 : ℚ) else ((h % 12 : ℕ) : ℚ)) =
      ((twi12 h : ℤ) : ℚ) := by
  unfold twi12
  by_cases h0 : h % 12 = 0
  · simp [h0]
  · simp only [Nat.cast_eq_zero, h0, if_false]
    norm_cast

theorem getTwilight_parsed {s : JSStr} {h m : ℕ} {es : List JSStr}
    (hs : splitCols s = pad2 h :: pad2 m :: es) (hh : h ≤ 23) (hm : m ≤ 59)
    (ap : JSStr) :
    getTwilight s ap =
      ⟨hmString (twiPair h m ap).1 (twiPair h m ap).2, false⟩ := by
  simp only [getTwilight, hs, timeGuardFails_false hh hm, Bool.false_eq_true, if_false,
    List.getD_cons_zero, List.getD_cons_succ, jsNumber_pad2 (show h ≤ 99 by omega),
    jsNumber_pad2 (show m ≤ 99 by omega), Option.getD_some, jsRem_12, twi12_cast]
  unfold twiPair
  by_cases hap : ap = "am".data
  · rw [if_pos hap, if_pos hap]
    by_cases h36 : 36 ≤ m
    · have h36q : (36 : ℚ) ≤ (m : ℚ) := by exact_mod_cast h36
      rw [if_pos h36q, if_pos h36]
      have e1 : ((twi12 h : ℤ) : ℚ) - 1 = ((twi12 h - 1 : ℤ) : ℚ) := by push_cast; ring
      have e2 : (m : ℚ) - 36 = (((m : ℤ) - 36 : ℤ) : ℚ) := by push_cast; ring
      rw [e1, e2, twilightValue_int]
    · have h36q : ¬((36 : ℚ) ≤ (m : ℚ)) := by exact_mod_cast h36
      rw [if_neg h36q, if_neg h36]
      have e1 : ((twi12 h : ℤ) : ℚ) - 2 = ((twi12 h - 2 : ℤ) : ℚ) := by push_cast; ring
      have e2 : (m : ℚ) + 24 = (((m : ℤ) + 24 : ℤ) : ℚ) := by push_cast; ring
      rw [e1, e2, twilightValue_int]
  · rw [if_neg hap, if_neg hap]
    by_cases h36 : m < 36
    · have h36q : (m : ℚ) < 36 := by exact_mod_cast h36
      rw [if_pos h36q, if_pos h36]
      have e1 : ((twi12 h : ℤ) : ℚ) + 1 = ((twi12 h + 1 : ℤ) : ℚ) := by push_cast; ring
      have e2 : (m : ℚ) + 24 = (((m : ℤ) + 24 : ℤ) : ℚ) := by push_cast; ring
      rw [e1, e2, twilightValue_int]
    · have h36q : ¬((m : ℚ) < 36) := by exact_mod_cast h36
      rw [if_neg h36q, if_neg h36]
      have e1 : ((twi12 h : ℤ) : ℚ) + 2 = ((twi12 h + 2 : ℤ) : ℚ) := by push_cast; ring
      have e2 : (m : ℚ) - 36 = (((m : ℤ) - 36 : ℤ) : ℚ) := by push_cast; ring
      rw [e1, e2, twilightValue_int]

theorem formatTime_parsed {s : JSStr} {h m : ℕ} {es : List JSStr}
    (hs : splitCols s = pad2 h :: pad2 m :: es) (hh : h ≤ 23) (hm : m ≤ 59) :
    formatTime s =
      ⟨intStr (twi12 h) ++ ':' ::
        (pad2 m ++ ' ' :: (if 11 < h then ['P', 'M'] else ['A', 'M'])), false⟩ := by
  simp only [formatTime, hs, timeGuardFails_false hh hm, Bool.false_eq_true, if_false,
    List.getD_cons_zero, List.getD_cons_succ, jsNumber_pad2 (show h ≤ 99 by omega),
    jsNumber_pad2 (show m ≤ 99 by omega), Option.getD_some, jsRem_12, twi12_cast]
  rw [jsNumToStr_int]
  have h10 : ((m : ℚ) < 10) = (m < 10) := by
    apply propext; exact_mod_cast Iff.rfl
  have h11c : ((11 : ℚ) < (h : ℚ)) = (11 < h) := by
    apply propext; exact_mod_cast Iff.rfl
  simp only [h10, h11c, jsNumToStr_natCast]
  unfold pad2
  rfl

theorem hmString_natCast (a b : ℕ) : hmString (a : ℤ) (b : ℤ) = timeStr2 a b := by
  unfold hmString timeStr2 intPad pad2
  rw [intStr_natCast, intStr_natCast]
  have ha : (((a : ℕ) : ℤ) < 10) = (a < 10) := by
    apply propext; exact_mod_cast Iff.rfl
  have hb : (((b : ℕ) : ℤ) < 10) = (b < 10) := by
    apply propext; exact_mod_cast Iff.rfl
  simp only [ha, hb]

theorem intPad_natCast (n : ℕ) : intPad (n : ℤ) = pad2 n := by
  unfold intPad pad2
  rw [intStr_natCast]
  have hn : (((n : ℕ) : ℤ) < 10) = (n < 10) := by
    apply propext; exact_mod_cast Iff.rfl
  simp only [hn]

theorem pad2_length {n : ℕ} (h : n ≤ 99) : (pad2 n).length = 2 := by
  unfold pad2
  by_cases h10 : n < 10
  · rw [if_pos h10, natDigits_lt_10 h10]
    rfl
  · rw [if_neg h10, natDigits_two (by omega) (by omega)]
    rfl

theorem intStr_no_colon (x : ℤ) : ':' ∉ intStr x := by
  unfold intStr
  intro hmem
  split at hmem
  · rcases List.mem_cons.mp hmem with hc | hc
    · exact absurd hc (by decide)
    · exact isDigit_ne_colon (natDigits_all_digits _ ':' hc) rfl
  · exact isDigit_ne_colon (natDigits_all_digits _ ':' hmem) rfl

theorem intPad_no_colon (x : ℤ) : ':' ∉ intPad x := by
  unfold intPad
  intro hmem
  split at hmem
  · rcases List.mem_cons.mp hmem with hc | hc
    · exact absurd hc (by decide)
    · exact intStr_no_colon x hc
  · exact intStr_no_colon x hmem

theorem twi12_eq_self {h : ℕ} (h1 : 1 ≤ h) (h2 : h ≤ 12) : twi12 h = (h : ℤ) := by
  unfold twi12
  by_cases h12 : h = 12
  · subst h12; norm_num
  · have hlt : h % 12 = h := Nat.mod_eq_of_lt (by omega)
    rw [if_neg (by omega), hlt]

/-
  Claim theorems.
-/

/-- C1 (evaluation at the failing input): for sunset "19:04" the code's
getTwilight with "pm" returns "08:28" — the hour is first reduced with % 12
and the branch rule then advances the clock by 84 minutes — whereas the
sunset time plus 96 minutes is "20:40".  The program's own constants
(twilightMinutes = 24 * 4) and its "am" branch both use 96 minutes, so the
"pm" arithmetic contradicts the code's documented intent. -/
theorem lastLight_19_04_is_08_28_not_20_40 :
    (getTwilight "19:04".data "pm".data).value = "08:28".data ∧
    "08:28".data ≠ "20:40".data := by
  constructor
  · rw [getTwilight_parsed (show splitCols "19:04".data = pad2 19 :: pad2 4 :: [] from
      by decide) (by norm_num) (by norm_num) ("pm".data)]
    decide
  · decide

/-- C3 (counterexample): at sunrise "00:40" the code returns "11:04",
because the hour 0 is first mapped to 12 by the 12-hour reduction; the rule
claimed — (hour - 1, minute - 36) with no other transformation of the
hour — would give (-1, 4), rendered "0-1:04" by the code's own padding. -/
theorem firstLight_00_40_counterexample :
    (getTwilight "00:40".data "am".data).value = "11:04".data ∧
    "11:04".data ≠
      hmString (specFirstLightPair 0 40).1 (specFirstLightPair 0 40).2 := by
  constructor
  · rw [getTwilight_parsed (show splitCols "00:40".data = pad2 0 :: pad2 40 :: [] from
      by decide) (by norm_num) (by norm_num) ("am".data)]
    decide
  · decide

/-- C3 (amended): for sunrise hours 1 through 12 — exactly the hours on
which the code's 12-hour reduction of the hour is the identity — getTwilight
with "am" returns precisely the claimed branch rule: (hour - 1, minute - 36)
when the minute is at least 36, otherwise (hour - 2, minute + 24), rendered
with two-character padding.  For hour 0 and hours 13 through 23 the code
first replaces the hour by hour % 12 (with 0 becoming 12), so the claim as
stated fails there. -/
theorem firstLight_branch_rule_hours_1_12 (h m : ℕ)
    (h1 : 1 ≤ h) (h2 : h ≤ 12) (hm : m ≤ 59) :
    getTwilight (timeStr2 h m) "am".data =
      ⟨hmString (specFirstLightPair h m).1 (specFirstLightPair h m).2, false⟩ := by
  rw [getTwilight_parsed (splitCols_timeStr2 h m) (by omega) hm ("am".data)]
  have hpair : twiPair h m "am".data = specFirstLightPair (h : ℤ) (m : ℤ) := by
    unfold twiPair specFirstLightPair
    rw [if_pos rfl, twi12_eq_self h1 h2]
    by_cases h36 : 36 ≤ m
    · rw [if_pos h36, if_pos (by exact_mod_cast h36)]
    · rw [if_neg h36, if_neg (by exact_mod_cast h36)]
  rw [hpair]

/-- C3 (witness): the amended rule applied at sunrise "06:20" gives first
light "04:44". -/
theorem firstLight_branch_rule_witness :
    ((1 : ℕ) ≤ 6 ∧ (6 : ℕ) ≤ 12 ∧ (20 : ℕ) ≤ 59) ∧
    getTwilight (timeStr2 6 20) "am".data = ⟨"04:44".data, false⟩ := by
  refine ⟨⟨by norm_num, by norm_num, by norm_num⟩, ?_⟩
  rw [firstLight_branch_rule_hours_1_12 6 20 (by norm_num) (by norm_num) (by norm_num)]
  decide

/-- C5 (counterexample): at sunrise "00:00" the derived first light is
"10:24", and adding 96 minutes modulo 24 hours lands on minute 720 of the
day (12:00), not on the original sunrise (minute 0): the round trip
fails. -/
theorem firstLight_roundTrip_00_00_fails :
    (getTwilight "00:00".data "am".data).value = "10:24".data ∧
    (60 * 10 + 24 + 96) % 1440 ≠ 60 * 0 + 0 := by
  constructor
  · rw [getTwilight_parsed (show splitCols "00:00".data = pad2 0 :: pad2 0 :: [] from
      by decide) (by norm_num) (by norm_num) ("am".data)]
    decide
  · decide

/-- C5 (amended): for sunrise hours 1 through 12 — except hour 1 with a
minute below 36 — the derived first light is again a well-formed "HH:MM"
string, and adding 96 minutes modulo 24 hours returns exactly the original
sunrise minute-of-day.  In the remaining cases the round trip fails: at
hour 1 with minute below 36, and likewise at hour 13 with minute below 36,
the derived hour is -1 and the output ("0-1:MM") is not a well-formed time
string; at hour 0, and at hours 13 through 23 whenever the output is
well-formed, the result is off by exactly 12 hours, because the code
reduces the hour with % 12 (0 becoming 12) before subtracting. -/
theorem firstLight_roundTrip_hours_1_12 (h m : ℕ)
    (h1 : 1 ≤ h) (h12 : h ≤ 12) (hm : m ≤ 59) (hex : h = 1 → 36 ≤ m) :
    ∃ p : ℕ × ℕ,
      (getTwilight (timeStr2 h m) "am".data).value = timeStr2 p.1 p.2 ∧
      (60 * p.1 + p.2 + 96) % 1440 = 60 * h + m := by
  rw [getTwilight_parsed (splitCols_timeStr2 h m) (by omega) hm ("am".data)]
  have ht := twi12_eq_self h1 h12
  by_cases h36 : 36 ≤ m
  · refine ⟨(h - 1, m - 36), ?_, by omega⟩
    have e1 : twiPair h m "am".data = (((h - 1 : ℕ) : ℤ), ((m - 36 : ℕ) : ℤ)) := by
      unfold twiPair
      rw [if_pos rfl, if_pos h36, ht]
      simp only [Prod.mk.injEq]
      constructor <;> omega
    show hmString (twiPair h m "am".data).1 (twiPair h m "am".data).2 =
      timeStr2 (h - 1, m - 36).1 (h - 1, m - 36).2
    rw [e1]
    exact hmString_natCast _ _
  · have hge2 : 2 ≤ h := by
      rcases Nat.eq_or_lt_of_le h1 with heq | hlt
      · exact absurd (hex heq.symm) h36
      · omega
    refine ⟨(h - 2, m + 24), ?_, by omega⟩
    have e1 : twiPair h m "am".data = (((h - 2 : ℕ) : ℤ), ((m + 24 : ℕ) : ℤ)) := by
      unfold twiPair
      rw [if_pos rfl, if_neg h36, ht]
      simp only [Prod.mk.injEq]
      constructor <;> omega
    show hmString (twiPair h m "am".data).1 (twiPair h m "am".data).2 =
      timeStr2 (h - 2, m + 24).1 (h - 2, m + 24).2
    rw [e1]
    exact hmString_natCast _ _

/-- C5 (witness): at sunrise "01:40" — the hour-1 case with minute at least
36 — the derived first light is the well-formed "00:04", and the round trip
through it recovers minute 100 of the day, the original sunrise. -/
theorem firstLight_roundTrip_witness :
    ((1 : ℕ) ≤ 1 ∧ (1 : ℕ) ≤ 12 ∧ (40 : ℕ) ≤ 59 ∧ ((1 : ℕ) = 1 → (36 : ℕ) ≤ 40)) ∧
    (∃ p : ℕ × ℕ,
      (getTwilight (timeStr2 1 40) "am".data).value = timeStr2 p.1 p.2 ∧
      (60 * p.1 + p.2 + 96) % 1440 = 60 * 1 + 40) :=
  ⟨⟨by norm_num, by norm_num, by norm_num, fun _ => by norm_num⟩,
    firstLight_roundTrip_hours_1_12 1 40 (by norm_num) (by norm_num) (by norm_num)
      (fun _ => by norm_num)⟩

/-- C10: for every valid "HH:MM" input and either direction argument, the
minute component of getTwilight's output is a two-character zero-padded
field that parses back to a minute in 0..59: input minutes at least 36 land
in 0..23 and input minutes below 36 land in 24..59, in both the "am" and
the "pm" branch; the output decomposes as hour field, colon, minute field,
and re-splitting the output on ":" recovers exactly that minute field.
Only the hour component can leave the valid range. -/
theorem twilight_minute_invariant (h m : ℕ) (hh : h ≤ 23) (hm : m ≤ 59)
    (ap : JSStr) :
    ∃ mv : ℕ,
      (getTwilight (timeStr2 h m) ap).value =
        intPad (twiPair h m ap).1 ++ ':' :: pad2 mv ∧
      mv ≤ 59 ∧ (36 ≤ m → mv ≤ 23) ∧ (m < 36 → 24 ≤ mv) ∧
      (pad2 mv).length = 2 ∧ jsNumber (pad2 mv) = some ((mv : ℕ) : ℚ) ∧
      (splitCols (getTwilight (timeStr2 h m) ap).value).getD 1 [] = pad2 mv := by
  rw [getTwilight_parsed (splitCols_timeStr2 h m) hh hm ap]
  have hsnd : (twiPair h m ap).2 = ((if 36 ≤ m then m - 36 else m + 24 : ℕ) : ℤ) := by
    unfold twiPair
    by_cases hap : ap = "am".data
    · rw [if_pos hap]
      by_cases h36 : 36 ≤ m
      · rw [if_pos h36, if_pos h36]
        show (m : ℤ) - 36 = _
        omega
      · rw [if_neg h36, if_neg h36]
        show (m : ℤ) + 24 = _
        omega
    · rw [if_neg hap]
      by_cases h36 : 36 ≤ m
      · rw [if_neg (by omega : ¬ m < 36), if_pos h36]
        show (m : ℤ) - 36 = _
        omega
      · rw [if_pos (by omega : m < 36), if_neg h36]
        show (m : ℤ) + 24 = _
        omega
  have hval : hmString (twiPair h m ap).1 (twiPair h m ap).2 =
      intPad (twiPair h m ap).1 ++ ':' :: pad2 (if 36 ≤ m then m - 36 else m + 24) := by
    unfold hmString
    rw [hsnd, intPad_natCast]
  refine ⟨if 36 ≤ m then m - 36 else m + 24, hval, by split <;> omega,
    fun h36 => by rw [if_pos h36]; omega, fun h36 => by rw [if_neg (by omega : ¬ 36 ≤ m)]; omega,
    pad2_length (by split <;> omega), jsNumber_pad2 (by split <;> omega), ?_⟩
  show (splitCols (hmString (twiPair h m ap).1 (twiPair h m ap).2)).getD 1 [] = _
  rw [hval, splitCols_append (intPad_no_colon _),
    splitCols_no_colon (pad2_no_colon _)]
  rfl

/-- C10 (witness): at input "07:10" with "pm" the minute invariant holds
with derived minute 34. -/
theorem twilight_minute_invariant_witness :
    ((7 : ℕ) ≤ 23 ∧ (10 : ℕ) ≤ 59) ∧
    (∃ mv : ℕ,
      (getTwilight (timeStr2 7 10) "pm".data).value =
        intPad (twiPair 7 10 "pm".data).1 ++ ':' :: pad2 mv ∧
      mv ≤ 59 ∧ (36 ≤ 10 → mv ≤ 23) ∧ (10 < 36 → 24 ≤ mv) ∧
      (pad2 mv).length = 2 ∧ jsNumber (pad2 mv) = some ((mv : ℕ) : ℚ) ∧
      (splitCols (getTwilight (timeStr2 7 10) "pm".data).value).getD 1 [] = pad2 mv) :=
  ⟨⟨by norm_num, by norm_num⟩,
    twilight_minute_invariant 7 10 (by norm_num) (by norm_num) ("pm".data)⟩

theorem jsRem_360_eq_mathMod {x : ℚ} (hx : 0 ≤ x) : jsRem x 360 = mathMod360 x := by
  unfold jsRem truncQ mathMod360
  rw [if_pos (by positivity)]

theorem mathMod360_add_360 (x : ℚ) : mathMod360 (x + 360) = mathMod360 x := by
  unfold mathMod360
  rw [show (x + 360) / 360 = x / 360 + 1 from by ring, Int.floor_add_one]
  push_cast
  ring

/-- C2 (counterexample): at dial angle -100 the code's getRenderAngle is the
radian conversion of -10 (the JavaScript truncating remainder), while the
true mathematical modulo gives 350; consequently getRenderAngle is not
periodic there: getRenderAngle (-100) differs from
getRenderAngle (-100 + 360). -/
theorem renderAngle_not_periodic_at_neg100 :
    getRenderAngle (-100) ≠ getRenderAngle (-100 + 360) ∧
    getRenderAngle (-100) ≠ specRenderAngle (-100) := by
  have d1 : getRenderAngleDeg (-100) = -10 := by
    norm_num [getRenderAngleDeg, jsRem, truncQ]
  have d2 : getRenderAngleDeg (-100 + 360) = 350 := by
    norm_num [getRenderAngleDeg, jsRem, truncQ]
  have d3 : specRenderAngleDeg (-100) = 350 := by
    norm_num [specRenderAngleDeg, mathMod360]
  constructor
  · unfold getRenderAngle
    rw [d1, d2]
    intro heq
    push_cast at heq
    linarith [Real.pi_pos]
  · unfold getRenderAngle specRenderAngle
    rw [d1, d3]
    intro heq
    push_cast at heq
    linarith [Real.pi_pos]

/-- C2 (amended): for every dial angle of at least -90 — which covers every
angle this program ever passes in, since dial angles are at least 0 and the
twilight subtraction lowers them by at most 24 — getRenderAngle equals the
radian conversion of the true mathematical modulo of (angle + 180 - 90) by
360, and is periodic: getRenderAngle (a + 360) = getRenderAngle a.  Below
-90 the JavaScript % yields a nonpositive remainder and the claim fails: at
-100 both the mathematical-modulo form and the periodicity fail, as the
counterexample shows. -/
theorem renderAngle_mathMod_of_ge_neg90 (a : ℚ) (ha : -90 ≤ a) :
    getRenderAngle a = specRenderAngle a ∧
    getRenderAngle (a + 360) = getRenderAngle a := by
  have hdeg : ∀ b : ℚ, -90 ≤ b → getRenderAngleDeg b = specRenderAngleDeg b := by
    intro b hb
    unfold getRenderAngleDeg specRenderAngleDeg
    exact jsRem_360_eq_mathMod (by linarith)
  constructor
  · unfold getRenderAngle specRenderAngle
    rw [hdeg a ha]
  · unfold getRenderAngle
    rw [hdeg (a + 360) (by linarith), hdeg a ha]
    unfold specRenderAngleDeg
    rw [show a + 360 + 180 - 90 = (a + 180 - 90) + 360 from by ring, mathMod360_add_360]

/-- C2 (witness): at dial angle -24, the most negative angle the program
produces, the render angle equals the mathematical-modulo form and is
periodic. -/
theorem renderAngle_mathMod_witness :
    ((-90 : ℚ) ≤ -24) ∧
    (getRenderAngle (-24) = specRenderAngle (-24) ∧
      getRenderAngle (-24 + 360) = getRenderAngle (-24)) :=
  ⟨by norm_num, renderAngle_mathMod_of_ge_neg90 (-24) (by norm_num)⟩

/-- C4: the label-slot assignment of getImage is total and follows the
exact branch table: on the whole dial range exactly one of the three
sunrise branches fires (angle ≤ 90: slots 2/3; 90 < angle < 114: slots
1/2; otherwise, that is 114 ≤ angle: slots 0/1) and exactly one of the four
sunset branches fires (angle ≤ 246: slots 4/5; 246 < angle < 270: slots
5/6; 270 ≤ angle ≤ 290: slots 6/7; otherwise, that is 290 < angle: slots
7/8); the boundary angles 90, 114, 246, 270 and 290 resolve to the branch
given by the bounds as written. -/
theorem labelSlots_branch_table (a : ℚ) (h0 : 0 ≤ a) (h360 : a < 360) :
    ((a ≤ 90 ∨ (90 < a ∧ a < 114) ∨ 114 ≤ a) ∧
      ¬(a ≤ 90 ∧ (90 < a ∧ a < 114)) ∧ ¬(a ≤ 90 ∧ 114 ≤ a) ∧
      ¬((90 < a ∧ a < 114) ∧ 114 ≤ a)) ∧
    (sunriseLabelSlots a = (2, 3) ↔ a ≤ 90) ∧
    (sunriseLabelSlots a = (1, 2) ↔ 90 < a ∧ a < 114) ∧
    (sunriseLabelSlots a = (0, 1) ↔ 114 ≤ a) ∧
    ((a ≤ 246 ∨ (246 < a ∧ a < 270) ∨ (270 ≤ a ∧ a ≤ 290) ∨ 290 < a) ∧
      ¬(a ≤ 246 ∧ (246 < a ∧ a < 270)) ∧ ¬(a ≤ 246 ∧ (270 ≤ a ∧ a ≤ 290)) ∧
      ¬(a ≤ 246 ∧ 290 < a) ∧ ¬((246 < a ∧ a < 270) ∧ (270 ≤ a ∧ a ≤ 290)) ∧
      ¬((246 < a ∧ a < 270) ∧ 290 < a) ∧ ¬((270 ≤ a ∧ a ≤ 290) ∧ 290 < a)) ∧
    (sunsetLabelSlots a = (4, 5) ↔ a ≤ 246) ∧
    (sunsetLabelSlots a = (5, 6) ↔ 246 < a ∧ a < 270) ∧
    (sunsetLabelSlots a = (6, 7) ↔ 270 ≤ a ∧ a ≤ 290) ∧
    (sunsetLabelSlots a = (7, 8) ↔ 290 < a) ∧
    sunriseLabelSlots 90 = (2, 3) ∧ sunriseLabelSlots 114 = (0, 1) ∧
    sunsetLabelSlots 246 = (4, 5) ∧ sunsetLabelSlots 270 = (6, 7) ∧
    sunsetLabelSlots 290 = (6, 7) := by
  have e1 : sunriseLabelSlots a =
      if a ≤ 90 then (2, 3) else if a < 114 then (1, 2) else (0, 1) := by
    unfold sunriseLabelSlots twilightDegrees
    norm_num
  have e2 : sunsetLabelSlots a =
      if a ≤ 246 then (4, 5) else if a < 270 then (5, 6)
      else if a ≤ 290 then (6, 7) else (7, 8) := by
    unfold sunsetLabelSlots twilightDegrees
    norm_num
  refine ⟨⟨?_, ?_, ?_, ?_⟩, ?_, ?_, ?_, ⟨?_, ?_, ?_, ?_, ?_, ?_, ?_⟩, ?_, ?_, ?_, ?_,
    by norm_num [sunriseLabelSlots, twilightDegrees],
    by norm_num [sunriseLabelSlots, twilightDegrees],
    by norm_num [sunsetLabelSlots, twilightDegrees],
    by norm_num [sunsetLabelSlots, twilightDegrees],
    by norm_num [sunsetLabelSlots, twilightDegrees]⟩
  · rcases le_or_lt a 90 with h | h
    · exact Or.inl h
    · rcases lt_or_le a 114 with h2 | h2
      · exact Or.inr (Or.inl ⟨h, h2⟩)
      · exact Or.inr (Or.inr h2)
  · rintro ⟨x, y, -⟩; linarith
  · rintro ⟨x, y⟩; linarith
  · rintro ⟨⟨-, y⟩, z⟩; linarith
  · rw [e1]
    by_cases h : a ≤ 90
    · simp [h]
    · by_cases h2 : a < 114 <;> simp [h, h2]
  · rw [e1]
    by_cases h : a ≤ 90
    · simp [h, not_lt.mpr h]
    · by_cases h2 : a < 114
      · simp [h, h2, not_le.mp h]
      · simp [h, h2]
  · rw [e1]
    by_cases h : a ≤ 90
    · simp [h, not_le.mpr (show a < 114 by linarith)]
    · by_cases h2 : a < 114
      · simp [h, h2, not_le.mpr h2]
      · simp [h, h2, not_lt.mp h2]
  · rcases le_or_lt a 246 with h | h
    · exact Or.inl h
    · rcases lt_or_le a 270 with h2 | h2
      · exact Or.inr (Or.inl ⟨h, h2⟩)
      · rcases le_or_lt a 290 with h3 | h3
        · exact Or.inr (Or.inr (Or.inl ⟨h2, h3⟩))
        · exact Or.inr (Or.inr (Or.inr h3))
  · rintro ⟨x, y, -⟩; linarith
  · rintro ⟨x, y, -⟩; linarith
  · rintro ⟨x, y⟩; linarith
  · rintro ⟨⟨-, y⟩, z, -⟩; linarith
  · rintro ⟨⟨-, y⟩, z⟩; linarith
  · rintro ⟨⟨-, y⟩, z⟩; linarith
  · rw [e2]
    by_cases h : a ≤ 246
    · simp [h]
    · by_cases h2 : a < 270
      · simp [h, h2]
      · by_cases h3 : a ≤ 290 <;> simp [h, h2, h3]
  · rw [e2]
    by_cases h : a ≤ 246
    · simp [h, not_lt.mpr h]
    · by_cases h2 : a < 270
      · simp [h, h2, not_le.mp h]
      · by_cases h3 : a ≤ 290 <;> simp [h, h2, h3]
  · rw [e2]
    by_cases h : a ≤ 246
    · simp [h, not_le.mpr (show a < 270 by linarith)]
    · by_cases h2 : a < 270
      · simp [h, h2, not_le.mpr h2]
      · by_cases h3 : a ≤ 290
        · simp [h, h2, h3, not_lt.mp h2]
        · simp [h, h2, h3]
  · rw [e2]
    by_cases h : a ≤ 246
    · simp [h, not_lt.mpr (show a ≤ 290 by linarith)]
    · by_cases h2 : a < 270
      · simp [h, h2, not_lt.mpr (show a ≤ 290 by linarith)]
      · by_cases h3 : a ≤ 290
        · simp [h, h2, h3, not_lt.mpr h3]
        · simp [h, h2, h3, not_le.mp h3]

/-- C4 (witness): at sunrise angle 100 (a 6:40 sunrise) the middle branch
fires with slots 1/2, and at sunset angle 100 the first sunset branch
would give slots 4/5. -/
theorem labelSlots_branch_table_witness :
    ((0 : ℚ) ≤ 100 ∧ (100 : ℚ) < 360) ∧
    sunriseLabelSlots 100 = (1, 2) ∧ sunsetLabelSlots 100 = (4, 5) :=
  ⟨⟨by norm_num, by norm_num⟩,
    (labelSlots_branch_table 100 (by norm_num) (by norm_num)).2.2.1.mpr
      ⟨by norm_num, by norm_num⟩,
    ((labelSlots_branch_table 100 (by norm_num) (by norm_num)).2.2.2.2.2.1).mpr
      (by norm_num)⟩

theorem splitCols_timeStr2_ext (h m : ℕ) (t : JSStr) :
    splitCols (timeStr2 h m ++ ':' :: t) = pad2 h :: pad2 m :: splitCols t := by
  rw [show timeStr2 h m ++ ':' :: t = pad2 h ++ ':' :: (pad2 m ++ ':' :: t) from by
    simp [timeStr2]]
  rw [splitCols_append (pad2_no_colon h), splitCols_append (pad2_no_colon m)]

theorem angle_lt_iff (h1 m1 h2 m2 : ℕ) :
    ((h1 : ℚ) * 15 + (m1 : ℚ) / 4 < (h2 : ℚ) * 15 + (m2 : ℚ) / 4) ↔
      60 * h1 + m1 < 60 * h2 + m2 := by
  rw [show (h1 : ℚ) * 15 + (m1 : ℚ) / 4 = ((60 * h1 + m1 : ℕ) : ℚ) / 4 from by
      push_cast; ring,
    show (h2 : ℚ) * 15 + (m2 : ℚ) / 4 = ((60 * h2 + m2 : ℕ) : ℚ) / 4 from by
      push_cast; ring]
  constructor
  · intro hlt
    have h4 : ((60 * h1 + m1 : ℕ) : ℚ) < ((60 * h2 + m2 : ℕ) : ℚ) := by linarith
    exact_mod_cast h4
  · intro hlt
    have h4 : ((60 * h1 + m1 : ℕ) : ℚ) < ((60 * h2 + m2 : ℕ) : ℚ) := by exact_mod_cast hlt
    linarith

/-- C6: on every malformed time string — fewer than two colon-separated
fields, a non-numeric (NaN) hour or minute field, an hour outside 0..23, or
a minute outside 0..59 — getAngle logs a warning and returns angle 0, and
formatTime logs a warning and returns the empty string; both functions are
total, so rendering continues with these defaults.  The spec's concrete
cases "25:00", "12:60", "abc" and "12" are evaluated explicitly. -/
theorem malformed_time_defaults :
    (∀ s : JSStr,
      ((splitCols s).length < 2 ∨
        jsNumber ((splitCols s).getD 0 []) = none ∨
        jsNumber ((splitCols s).getD 1 []) = none ∨
        (∃ hq : ℚ, jsNumber ((splitCols s).getD 0 []) = some hq ∧
          (hq < 0 ∨ 23 < hq)) ∨
        (∃ mq : ℚ, jsNumber ((splitCols s).getD 1 []) = some mq ∧
          (mq < 0 ∨ 59 < mq))) →
      getAngle s = ⟨0, true⟩ ∧ formatTime s = ⟨[], true⟩) ∧
    (getAngle "25:00".data = ⟨0, true⟩ ∧ formatTime "25:00".data = ⟨[], true⟩) ∧
    (getAngle "12:60".data = ⟨0, true⟩ ∧ formatTime "12:60".data = ⟨[], true⟩) ∧
    (getAngle "abc".data = ⟨0, true⟩ ∧ formatTime "abc".data = ⟨[], true⟩) ∧
    (getAngle "12".data = ⟨0, true⟩ ∧ formatTime "12".data = ⟨[], true⟩) := by
  have core : ∀ s : JSStr,
      ((splitCols s).length < 2 ∨
        jsNumber ((splitCols s).getD 0 []) = none ∨
        jsNumber ((splitCols s).getD 1 []) = none ∨
        (∃ hq : ℚ, jsNumber ((splitCols s).getD 0 []) = some hq ∧
          (hq < 0 ∨ 23 < hq)) ∨
        (∃ mq : ℚ, jsNumber ((splitCols s).getD 1 []) = some mq ∧
          (mq < 0 ∨ 59 < mq))) →
      getAngle s = ⟨0, true⟩ ∧ formatTime s = ⟨[], true⟩ := by
    intro s hbad
    have hguard : timeGuardFails (splitCols s) = true := by
      unfold timeGuardFails
      simp only [Bool.or_eq_true, decide_eq_true_eq, Option.isNone_iff_eq_none]
      rcases hbad with h | h | h | ⟨hq, hsome, hb⟩ | ⟨mq, hsome, hb⟩
      · tauto
      · tauto
      · tauto
      · rw [hsome]
        simp only [Option.getD_some]
        tauto
      · rw [hsome]
        simp only [Option.getD_some]
        tauto
    exact ⟨by simp [getAngle, hguard], by simp [formatTime, hguard]⟩
  have hnum : ∀ l : JSStr, l ≠ [] → (∀ c ∈ l, c.isDigit = true) → ∀ v : ℕ,
      natOfDigits l = v → jsNumber l = some ((v : ℕ) : ℚ) := by
    intro l hne hd v hv
    rw [jsNumber_digits hne hd, hv]
  refine ⟨core, ?_, ?_, ?_, ?_⟩
  · refine core "25:00".data (Or.inr (Or.inr (Or.inr (Or.inl
      ⟨((25 : ℕ) : ℚ), ?_, Or.inr (by norm_num)⟩))))
    rw [show (splitCols "25:00".data).getD 0 [] = "25".data from by decide]
    exact hnum "25".data (by decide) (by decide) 25 (by decide)
  · refine core "12:60".data (Or.inr (Or.inr (Or.inr (Or.inr
      ⟨((60 : ℕ) : ℚ), ?_, Or.inr (by norm_num)⟩))))
    rw [show (splitCols "12:60".data).getD 1 [] = "60".data from by decide]
    exact hnum "60".data (by decide) (by decide) 60 (by decide)
  · exact core "abc".data (Or.inl (by decide))
  · exact core "12".data (Or.inl (by decide))

/-- C6 (witness): the malformed-input rule applied at "24:00", an hour just
out of range. -/
theorem malformed_time_defaults_witness :
    getAngle "24:00".data = ⟨0, true⟩ ∧ formatTime "24:00".data = ⟨[], true⟩ := by
  refine malformed_time_defaults.1 "24:00".data (Or.inr (Or.inr (Or.inr (Or.inl
    ⟨((24 : ℕ) : ℚ), ?_, Or.inr (by norm_num)⟩))))
  rw [show (splitCols "24:00".data).getD 0 [] = "24".data from by decide]
  rw [jsNumber_digits (by decide) (by decide),
    show natOfDigits "24".data = 24 from by decide]

/-- C7: on every time string whose first two colon-separated fields parse
as an hour in 0..23 and a minute in 0..59, getAngle returns
hour * 15 + minute / 4 without warning, ignoring any further fields; the
spec's concrete values are evaluated explicitly, including a current-time
string with seconds and milliseconds. -/
theorem getAngle_on_valid_times :
    (∀ (s : JSStr) (hq mq : ℚ),
      2 ≤ (splitCols s).length →
      jsNumber ((splitCols s).getD 0 []) = some hq →
      jsNumber ((splitCols s).getD 1 []) = some mq →
      0 ≤ hq → hq ≤ 23 → 0 ≤ mq → mq ≤ 59 →
      getAngle s = ⟨hq * 15 + mq / 4, false⟩) ∧
    getAngle "00:00".data = ⟨0, false⟩ ∧
    getAngle "06:00".data = ⟨90, false⟩ ∧
    getAngle "18:00".data = ⟨270, false⟩ ∧
    getAngle "23:59".data = ⟨359.75, false⟩ ∧
    getAngle "08:21:14.988".data = ⟨125.25, false⟩ := by
  refine ⟨?_, ?_, ?_, ?_, ?_, ?_⟩
  · intro s hq mq hlen h0some h1some hq0 hq23 hm0 hm59
    have b1 : decide ((splitCols s).length < 2) = false := decide_eq_false (by omega)
    have b2 : decide (hq < 0) = false := decide_eq_false (not_lt.mpr hq0)
    have b3 : decide (23 < hq) = false := decide_eq_false (not_lt.mpr hq23)
    have b4 : decide (mq < 0) = false := decide_eq_false (not_lt.mpr hm0)
    have b5 : decide (59 < mq) = false := decide_eq_false (not_lt.mpr hm59)
    have hguard : timeGuardFails (splitCols s) = false := by
      unfold timeGuardFails
      rw [h0some, h1some]
      simp only [Option.getD_some, Option.isNone_some, b1, b2, b3, b4, b5]
      rfl
    simp only [getAngle, hguard, Bool.false_eq_true, if_false, h0some, h1some,
      Option.getD_some]
  · rw [getAngle_parsed (show splitCols "00:00".data = pad2 0 :: pad2 0 :: [] from
      by decide) (by norm_num) (by norm_num)]
    norm_num [Logged.mk.injEq]
  · rw [getAngle_parsed (show splitCols "06:00".data = pad2 6 :: pad2 0 :: [] from
      by decide) (by norm_num) (by norm_num)]
    norm_num [Logged.mk.injEq]
  · rw [getAngle_parsed (show splitCols "18:00".data = pad2 18 :: pad2 0 :: [] from
      by decide) (by norm_num) (by norm_num)]
    norm_num [Logged.mk.injEq]
  · rw [getAngle_parsed (show splitCols "23:59".data = pad2 23 :: pad2 59 :: [] from
      by decide) (by norm_num) (by norm_num)]
    norm_num [Logged.mk.injEq]
  · rw [getAngle_parsed (show splitCols "08:21:14.988".data =
      pad2 8 :: pad2 21 :: ["14.988".data] from by decide) (by norm_num) (by norm_num)]
    norm_num [Logged.mk.injEq]

/-- C7 (witness): the general rule applied at "07:30" gives angle 112.5. -/
theorem getAngle_on_valid_times_witness :
    getAngle "07:30".data = ⟨((7 : ℕ) : ℚ) * 15 + ((30 : ℕ) : ℚ) / 4, false⟩ := by
  have h0 : jsNumber ((splitCols "07:30".data).getD 0 []) = some ((7 : ℕ) : ℚ) := by
    rw [show (splitCols "07:30".data).getD 0 [] = pad2 7 from by decide]
    exact jsNumber_pad2 (by norm_num)
  have h1 : jsNumber ((splitCols "07:30".data).getD 1 []) = some ((30 : ℕ) : ℚ) := by
    rw [show (splitCols "07:30".data).getD 1 [] = pad2 30 from by decide]
    exact jsNumber_pad2 (by norm_num)
  exact getAngle_on_valid_times.1 "07:30".data _ _ (by decide) h0 h1
    (by positivity) (by norm_num) (by positivity) (by norm_num)

/-- C8: on every valid "HH:MM" time string formatTime produces the 12-hour
display string of the claim: displayed hour is the original hour mod 12
with 0 rendered as 12, minute zero-padded to two digits, suffix PM exactly
when the original hour is at least 12; the spec's concrete examples are
evaluated explicitly. -/
theorem formatTime_12_hour_display :
    (∀ h m : ℕ, h ≤ 23 → m ≤ 59 →
      formatTime (timeStr2 h m) = ⟨specFormat12 h m, false⟩) ∧
    formatTime "00:00".data = ⟨"12:00 AM".data, false⟩ ∧
    formatTime "12:00".data = ⟨"12:00 PM".data, false⟩ ∧
    formatTime "23:59".data = ⟨"11:59 PM".data, false⟩ ∧
    formatTime "09:05".data = ⟨"9:05 AM".data, false⟩ := by
  refine ⟨?_, ?_, ?_, ?_, ?_⟩
  · intro h m hh hm
    rw [formatTime_parsed (splitCols_timeStr2 h m) hh hm]
    unfold specFormat12 twi12
    have hsuf : (11 < h) = (12 ≤ h) := by
      apply propext; omega
    simp only [hsuf]
    by_cases h0 : h % 12 = 0
    · rw [if_pos h0, if_pos h0]
      rfl
    · rw [if_neg h0, if_neg h0, intStr_natCast]
  · rw [formatTime_parsed (show splitCols "00:00".data = pad2 0 :: pad2 0 :: [] from
      by decide) (by norm_num) (by norm_num)]
    decide
  · rw [formatTime_parsed (show splitCols "12:00".data = pad2 12 :: pad2 0 :: [] from
      by decide) (by norm_num) (by norm_num)]
    decide
  · rw [formatTime_parsed (show splitCols "23:59".data = pad2 23 :: pad2 59 :: [] from
      by decide) (by norm_num) (by norm_num)]
    decide
  · rw [formatTime_parsed (show splitCols "09:05".data = pad2 9 :: pad2 5 :: [] from
      by decide) (by norm_num) (by norm_num)]
    decide

/-- C8 (witness): the general rule applied at "15:45" gives "3:45 PM". -/
theorem formatTime_12_hour_display_witness :
    ((15 : ℕ) ≤ 23 ∧ (45 : ℕ) ≤ 59) ∧
    formatTime (timeStr2 15 45) = ⟨"3:45 PM".data, false⟩ := by
  refine ⟨⟨by norm_num, by norm_num⟩, ?_⟩
  rw [formatTime_12_hour_display.1 15 45 (by norm_num) (by norm_num)]
  decide

/-- C9: the inner disc of the current-time sun marker is filled with the
brighter daytime color exactly when the current-time dial angle lies
strictly between the sunrise and sunset dial angles — equivalently, when
the current minute-of-day lies strictly between the sunrise and sunset
minute-of-day — and with the dimmer color otherwise; the current-time
string may carry trailing seconds/millisecond fields, which are
ignored. -/
theorem sun_marker_color_iff_between
    (hr mr hs2 ms hc mc : ℕ) (t : JSStr)
    (hhr : hr ≤ 23) (hmr : mr ≤ 59) (hhs : hs2 ≤ 23) (hms : ms ≤ 59)
    (hhc : hc ≤ 23) (hmc : mc ≤ 59)
    (ht : t = [] ∨ ∃ u : JSStr, t = ':' :: u) :
    (sunMarkerInnerColor (timeStr2 hr mr) (timeStr2 hs2 ms) (timeStr2 hc mc ++ t) =
        sunUpColor ↔
      (60 * hr + mr < 60 * hc + mc ∧ 60 * hc + mc < 60 * hs2 + ms)) ∧
    (sunMarkerInnerColor (timeStr2 hr mr) (timeStr2 hs2 ms) (timeStr2 hc mc ++ t) =
        sunDownColor ↔
      ¬(60 * hr + mr < 60 * hc + mc ∧ 60 * hc + mc < 60 * hs2 + ms)) := by
  have hca : getAngle (timeStr2 hc mc ++ t) = ⟨(hc : ℚ) * 15 + (mc : ℚ) / 4, false⟩ := by
    rcases ht with rfl | ⟨u, rfl⟩
    · rw [List.append_nil]
      exact getAngle_parsed (splitCols_timeStr2 hc mc) hhc hmc
    · exact getAngle_parsed (splitCols_timeStr2_ext hc mc u) hhc hmc
  have hra := getAngle_parsed (splitCols_timeStr2 hr mr) hhr hmr
  have hsa := getAngle_parsed (splitCols_timeStr2 hs2 ms) hhs hms
  have key : sunMarkerInnerColor (timeStr2 hr mr) (timeStr2 hs2 ms)
      (timeStr2 hc mc ++ t) =
      if 60 * hr + mr < 60 * hc + mc ∧ 60 * hc + mc < 60 * hs2 + ms then
        sunUpColor
      else sunDownColor := by
    simp only [sunMarkerInnerColor, hra, hsa, hca]
    simp only [propext (angle_lt_iff hr mr hc mc), propext (angle_lt_iff hc mc hs2 ms)]
  by_cases hb : 60 * hr + mr < 60 * hc + mc ∧ 60 * hc + mc < 60 * hs2 + ms
  · rw [key, if_pos hb]
    exact ⟨⟨fun _ => hb, fun _ => rfl⟩,
      ⟨fun hEq => absurd hEq (by decide), fun hnb => absurd hb hnb⟩⟩
  · rw [key, if_neg hb]
    exact ⟨⟨fun hEq => absurd hEq (by decide), fun hcond => absurd hcond hb⟩,
      ⟨fun _ => hb, fun _ => rfl⟩⟩

/-- C9 (witness): with sunrise 06:20, sunset 19:04 and current time
12:00:30.500 the marker is filled with the daytime color. -/
theorem sun_marker_color_witness :
    sunMarkerInnerColor (timeStr2 6 20) (timeStr2 19 4)
      (timeStr2 12 0 ++ ':' :: "30.500".data) = sunUpColor :=
  (sun_marker_color_iff_between 6 20 19 4 12 0 (':' :: "30.500".data)
    (by norm_num) (by norm_num) (by norm_num) (by norm_num) (by norm_num) (by norm_num)
    (Or.inr ⟨"30.500".data, rfl⟩)).1.mpr ⟨by norm_num, by norm_num⟩

end SunBuilder
